import Mathlib

set_option maxRecDepth 100000

/-!
Verification development for the VCP evidence-pack verifier
(`evidence/sample_pack_2025Q1/verify.py`).

The Python source is shallowly embedded below: JSON values become the
inductive `Json` (numbers are modelled as integers — every numeric field the
verifier touches is an integer), dictionaries become association lists,
bytes become `List Nat` (each entry < 256), and Python's exception-based
error paths become `Option`-valued helpers whose `none` case the embedded
caller converts into a failed `VerificationResult`, exactly as the
`try/except` blocks in the source do.
-/

/-- A JSON value as loaded by `json.load`.  Objects keep insertion order
(Python dicts are ordered); sorting happens at canonicalization time, as in
`json.dumps(..., sort_keys=True)`.  Python `None` is `Json.null`. -/
inductive Json where
  | null : Json
  | bool : Bool → Json
  | int : Int → Json
  | str : String → Json
  | arr : List Json → Json
  | obj : List (String × Json) → Json

mutual

/-- Structural equality of JSON values, Python's `==` on parsed JSON data. -/
def jeq : Json → Json → Bool
  | .null, .null => true
  | .bool a, .bool b => a == b
  | .int a, .int b => a == b
  | .str a, .str b => a == b
  | .arr a, .arr b => jeqList a b
  | .obj a, .obj b => jeqFields a b
  | _, _ => false

def jeqList : List Json → List Json → Bool
  | [], [] => true
  | a :: as, b :: bs => jeq a b && jeqList as bs
  | _, _ => false

def jeqFields : List (String × Json) → List (String × Json) → Bool
  | [], [] => true
  | (k, v) :: as, (k2, v2) :: bs => k == k2 && jeq v v2 && jeqFields as bs
  | _, _ => false

end

/-- Code-point comparison of strings, as Python compares `str` keys. -/
def strLtB : List Char → List Char → Bool
  | [], [] => false
  | [], _ :: _ => true
  | _ :: _, [] => false
  | a :: as, b :: bs =>
    if a.toNat < b.toNat then true
    else if b.toNat < a.toNat then false
    else strLtB as bs

/-- Insert a key/value pair into a key-sorted field list. -/
def insertKV (x : String × Json) : List (String × Json) → List (String × Json)
  | [] => [x]
  | y :: ys => if strLtB y.1.data x.1.data then y :: insertKV x ys else x :: y :: ys

/-- Sort object fields by key, as `sort_keys=True` does. -/
def sortKV (fs : List (String × Json)) : List (String × Json) :=
  fs.foldr insertKV []

/-- The lowercase hex digit for `n < 16` (Python's `hexdigest` alphabet):
`0`-`9` are code points 48-57, `a`-`f` are 97-102. -/
def hexChar (n : Nat) : Char :=
  if n < 10 then Char.ofNat (48 + n) else Char.ofNat (87 + n)

/-- Two lowercase hex digits of a byte. -/
def byteHex (b : Nat) : String :=
  String.mk [hexChar (b / 16), hexChar (b % 16)]

/-- JSON string-character escaping as `json.dumps(..., ensure_ascii=False)`
performs it: `"` and `\` get a backslash, the five short escapes are used,
any other control character becomes `\u00xx`, everything else is emitted
verbatim. -/
def escChar (c : Char) : String :=
  if c = '"' then "\\\""
  else if c = '\\' then "\\\\"
  else if c = '\n' then "\\n"
  else if c = '\t' then "\\t"
  else if c = '\r' then "\\r"
  else if c.toNat = 8 then "\\b"
  else if c.toNat = 12 then "\\f"
  else if c.toNat < 32 then "\\u00" ++ byteHex c.toNat
  else String.singleton c

/-- A JSON string literal: quotes around the escaped characters. -/
def strDump (s : String) : String :=
  "\"" ++ String.join (s.data.map escChar) ++ "\""

/-- Decimal rendering of an integer, as `json.dumps` renders `int`. -/
def intDump : Int → String
  | .ofNat m => Nat.repr m
  | .negSucc m => "-" ++ Nat.repr (m + 1)

mutual

/-- Recursively sort every object's fields by key.  `json.dumps` with
`sort_keys=True` sorts at dump time; sorting first and then dumping without
sorting is the same function. -/
def jsonNorm : Json → Json
  | .null => .null
  | .bool b => .bool b
  | .int n => .int n
  | .str s => .str s
  | .arr xs => .arr (jsonNormList xs)
  | .obj fs => .obj (sortKV (jsonNormFields fs))

def jsonNormList : List Json → List Json
  | [] => []
  | x :: xs => jsonNorm x :: jsonNormList xs

def jsonNormFields : List (String × Json) → List (String × Json)
  | [] => []
  | (k, v) :: fs => (k, jsonNorm v) :: jsonNormFields fs

end

/-- Comma-join a list of already-rendered items. -/
def joinComma : List String → String
  | [] => ""
  | [x] => x
  | x :: y :: rest => x ++ "," ++ joinComma (y :: rest)

mutual

/-- Render a JSON value with `separators=(',', ':')` and no key sorting
(the input is expected to be normalized already). -/
def dumpRaw : Json → String
  | .null => "null"
  | .bool true => "true"
  | .bool false => "false"
  | .int n => intDump n
  | .str s => strDump s
  | .arr xs => "[" ++ joinComma (dumpList xs) ++ "]"
  | .obj fs => "\x7b" ++ joinComma (dumpFields fs) ++ "\x7d"

def dumpList : List Json → List String
  | [] => []
  | x :: xs => dumpRaw x :: dumpList xs

def dumpFields : List (String × Json) → List String
  | [] => []
  | (k, v) :: fs => (strDump k ++ ":" ++ dumpRaw v) :: dumpFields fs

end

/-- `canonicalize_json(obj)` from the source: RFC 8785-style canonical JSON,
`json.dumps(obj, sort_keys=True, separators=(',', ':'), ensure_ascii=False)`. -/
def canonicalize_json (j : Json) : String :=
  dumpRaw (jsonNorm j)

/-! ## SHA-256 (`hashlib.sha256`), over byte lists

Bytes are `Nat`s below 256; 32-bit words are `Nat`s reduced mod `2 ^ 32`. -/

/-- Truncate to a 32-bit word. -/
def w32 (n : Nat) : Nat := n % 4294967296

/-- Right-rotate a 32-bit word by `n` (for `0 < n < 32`). -/
def rotr (n x : Nat) : Nat := (x >>> n) ||| w32 (x <<< (32 - n))

def bsig0 (x : Nat) : Nat := rotr 2 x ^^^ rotr 13 x ^^^ rotr 22 x

def bsig1 (x : Nat) : Nat := rotr 6 x ^^^ rotr 11 x ^^^ rotr 25 x

def ssig0 (x : Nat) : Nat := rotr 7 x ^^^ rotr 18 x ^^^ (x >>> 3)

def ssig1 (x : Nat) : Nat := rotr 17 x ^^^ rotr 19 x ^^^ (x >>> 10)

def chF (x y z : Nat) : Nat := (x &&& y) ^^^ ((x ^^^ 4294967295) &&& z)

def majF (x y z : Nat) : Nat := (x &&& y) ^^^ (x &&& z) ^^^ (y &&& z)

/-- The 64 SHA-256 round constants (FIPS 180-2), written in decimal. -/
def shaK : List Nat :=
  [1116352408, 1899447441, 3049323471, 3921009573, 961987163,
   1508970993, 2453635748, 2870763221, 3624381080, 310598401,
   607225278, 1426881987, 1925078388, 2162078206, 2614888103,
   3248222580, 3835390401, 4022224774, 264347078, 604807628,
   770255983, 1249150122, 1555081692, 1996064986, 2554220882,
   2821834349, 2952996808, 3210313671, 3336571891, 3584528711,
   113926993, 338241895, 666307205, 773529912, 1294757372,
   1396182291, 1695183700, 1986661051, 2177026350, 2456956037,
   2730485921, 2820302411, 3259730800, 3345764771, 3516065817,
   3600352804, 4094571909, 275423344, 430227734, 506948616,
   659060556, 883997877, 958139571, 1322822218, 1537002063,
   1747873779, 1955562222, 2024104815, 2227730452, 2361852424,
   2428436474, 2756734187, 3204031479, 3329325298]

/-- The eight SHA-256 hash-state words. -/
structure H8 where
  a : Nat
  b : Nat
  c : Nat
  d : Nat
  e : Nat
  f : Nat
  g : Nat
  h : Nat

/-- Initial SHA-256 state. -/
def shaInit : H8 :=
  ⟨1779033703, 3144134277, 1013904242, 2773480762,
   1359893119, 2600822924, 528734635, 1541459225⟩

/-- `n` bytes of `v`, big-endian. -/
def toBytesBE : Nat → Nat → List Nat
  | 0, _ => []
  | k + 1, v => toBytesBE k (v / 256) ++ [v % 256]

/-- Group bytes into big-endian 32-bit words (trailing incompletes dropped;
blocks are always a multiple of four bytes). -/
def toWords : List Nat → List Nat
  | a :: b :: c :: d :: rest => (a * 16777216 + b * 65536 + c * 256 + d) :: toWords rest
  | _ => []

/-- Extend the 16 block words by `fuel` more schedule words. -/
def schedExtend : Nat → List Nat → List Nat
  | 0, acc => acc
  | fuel + 1, acc =>
    let i := acc.length
    let w := w32 (ssig1 (acc.getD (i - 2) 0) + acc.getD (i - 7) 0 +
                  ssig0 (acc.getD (i - 15) 0) + acc.getD (i - 16) 0)
    schedExtend fuel (acc ++ [w])

/-- The 64 compression rounds, consuming round constants and schedule words. -/
def compressRounds : List Nat → List Nat → H8 → H8
  | k :: ks, w :: ws, s =>
    let t1 := w32 (s.h + bsig1 s.e + chF s.e s.f s.g + k + w)
    let t2 := w32 (bsig0 s.a + majF s.a s.b s.c)
    compressRounds ks ws ⟨w32 (t1 + t2), s.a, s.b, s.c, w32 (s.d + t1), s.e, s.f, s.g⟩
  | _, _, s => s

/-- Process one 64-byte block. -/
def processBlock (s : H8) (block : List Nat) : H8 :=
  let ws := schedExtend 48 (toWords block)
  let t := compressRounds shaK ws s
  ⟨w32 (s.a + t.a), w32 (s.b + t.b), w32 (s.c + t.c), w32 (s.d + t.d),
   w32 (s.e + t.e), w32 (s.f + t.f), w32 (s.g + t.g), w32 (s.h + t.h)⟩

/-- SHA-256 padding: `0x80`, zeros to 56 mod 64, 8-byte big-endian bit length. -/
def padMessage (msg : List Nat) : List Nat :=
  msg ++ [128] ++ List.replicate ((119 - msg.length % 64) % 64) 0 ++
    toBytesBE 8 (8 * msg.length)

/-- Split into 64-byte blocks; `fuel` bounds the recursion (the byte count
suffices, since each step consumes 64 bytes). -/
def toBlocks : Nat → List Nat → List (List Nat)
  | 0, _ => []
  | _ + 1, [] => []
  | fuel + 1, l@(_ :: _) => l.take 64 :: toBlocks fuel (l.drop 64)

/-- SHA-256 of a byte list, as a 32-byte digest. -/
def sha256 (msg : List Nat) : List Nat :=
  let padded := padMessage msg
  let final := (toBlocks padded.length padded).foldl processBlock shaInit
  toBytesBE 4 final.a ++ toBytesBE 4 final.b ++ toBytesBE 4 final.c ++
  toBytesBE 4 final.d ++ toBytesBE 4 final.e ++ toBytesBE 4 final.f ++
  toBytesBE 4 final.g ++ toBytesBE 4 final.h

/-- Lowercase hex of a byte list (`bytes.hex()` / `hexdigest()`). -/
def bytesToHex (bs : List Nat) : String :=
  String.join (bs.map byteHex)

/-- UTF-8 encoding of one character. -/
def utf8Char (c : Char) : List Nat :=
  let n := c.toNat
  if n < 128 then [n]
  else if n < 2048 then [192 + n / 64, 128 + n % 64]
  else if n < 65536 then [224 + n / 4096, 128 + (n / 64) % 64, 128 + n % 64]
  else [240 + n / 262144, 128 + (n / 4096) % 64, 128 + (n / 64) % 64, 128 + n % 64]

/-- `str.encode('utf-8')`. -/
def utf8Encode (s : String) : List Nat :=
  (s.data.map utf8Char).flatten

/-- `compute_sha256(data)` from the source: SHA-256 of the UTF-8 encoding,
as a lowercase hex string. -/
def compute_sha256 (data : String) : String :=
  bytesToHex (sha256 (utf8Encode data))

/-- `str.lower()` for one character (ASCII range; the strings the verifier
lowercases are hex digests). -/
def lowerChar (c : Char) : Char :=
  if 'A' ≤ c ∧ c ≤ 'Z' then Char.ofNat (c.toNat + 32) else c

/-- `str.lower()` (ASCII). -/
def strLower (s : String) : String :=
  String.mk (s.data.map lowerChar)

/-- `s[:n]`, slicing by characters. -/
def strTake (s : String) (n : Nat) : String :=
  String.mk (s.data.take n)

/-- Parse hex characters to byte values. -/
def hexVal (c : Char) : Option Nat :=
  if '0' ≤ c ∧ c ≤ '9' then some (c.toNat - 48)
  else if 'a' ≤ c ∧ c ≤ 'f' then some (c.toNat - 87)
  else if 'A' ≤ c ∧ c ≤ 'F' then some (c.toNat - 55)
  else none

/-- `bytes.fromhex` on a character list: pairs of hex digits, ASCII spaces
between bytes skipped, anything else (including an odd tail) an error. -/
def hexPairs : List Char → Option (List Nat)
  | [] => some []
  | ' ' :: rest => hexPairs rest
  | c1 :: c2 :: rest =>
    match hexVal c1, hexVal c2, hexPairs rest with
    | some hi, some lo, some bs => some ((hi * 16 + lo) :: bs)
    | _, _, _ => none
  | [_] => none

/-- `bytes.fromhex(s)`: `none` models the `ValueError` the source catches. -/
def hexToBytes (s : String) : Option (List Nat) :=
  hexPairs s.data

/-! ## Data model

Records are modelled after the fields the verifier reads.  Fields the source
fetches with `dict.get(key, default)` are plain fields here, the default
standing in for a missing key; fields fetched with a bare `dict.get(key)`
(Python `None` on a missing key) go through `pyGet`, with `Json.null`
playing Python `None`. -/

/-- Dictionary lookup, first match (Python dict keys are unique). -/
def assocJ : List (String × Json) → String → Option Json
  | [], _ => none
  | (k, v) :: rest, key => if k == key then some v else assocJ rest key

/-- Python `d.get(k)`: `Json.null` (= Python `None`) when the key is absent. -/
def pyGet (d : List (String × Json)) (k : String) : Json :=
  (assocJ d k).getD .null

/-- Python `d.get(k, default)`. -/
def pyGetD (d : List (String × Json)) (k : String) (dflt : Json) : Json :=
  (assocJ d k).getD dflt

/-- An event as the verifier sees it: the `Header` dict and the remaining
top-level fields (the payload, i.e. the event dict minus the `Header` key). -/
structure Event where
  header : List (String × Json)
  payload : List (String × Json)

/-- One audit-path step: `{'hash': ..., 'position': 'left' | 'right'}`. -/
structure PathStep where
  hash : String
  position : String

/-- One inclusion proof of a batch. -/
structure InclusionProof where
  EventHash : String
  EventID : String
  AuditPath : List PathStep
  MerkleRoot : String

/-- A batch: ordered leaf-hash list, claimed root, inclusion proofs. -/
structure Batch where
  EventHashes : List String
  MerkleRoot : String
  InclusionProofs : List InclusionProof

/-- An anchor record.  `proofSha256` is `anchor.get('AnchorProof', {}).get('sha256', '')`. -/
structure Anchor where
  AnchorTarget : String
  AnchorID : String
  MerkleRoot : String
  proofSha256 : String

/-- `VerificationResult` from the source, the per-check outcome. -/
structure VerificationResult where
  passed : Bool
  message : String
  details : Option Json

/-! ## The verification functions -/

/-- `compute_event_hash(header, payload)`:
`SHA256(Canonical(Header without EventHash) || Canonical(Payload))`. -/
def compute_event_hash (header payload : List (String × Json)) : String :=
  compute_sha256
    (canonicalize_json (.obj (header.filter (fun kv => kv.1 != "EventHash"))) ++
     canonicalize_json (.obj payload))

/-- `compute_merkle_hash(data, is_leaf)`: RFC 6962 domain-separated hash,
`H(0x00 || data)` for leaves, `H(0x01 || left || right)` for internal nodes. -/
def compute_merkle_hash (data : List Nat) (is_leaf : Bool) : List Nat :=
  sha256 ((if is_leaf then 0 else 1) :: data)

/-- `VCPVerifier.verify_event_hash(event)`. -/
def verify_event_hash (event : Event) : VerificationResult :=
  let stored_hash := pyGetD event.header "EventHash" (.str "")
  let computed_hash := compute_event_hash event.header event.payload
  let dets : Json := .obj [("event_id", pyGet event.header "EventID"),
                           ("computed_hash", .str computed_hash),
                           ("stored_hash", stored_hash)]
  if jeq (.str computed_hash) stored_hash then
    ⟨true, "Event hash cryptographically verified", some dets⟩
  else
    ⟨false, "Event hash MISMATCH", some dets⟩

/-- One chain-break record of `verify_hash_chain`. -/
def mkChainErr (i : Nat) (header : List (String × Json)) (expected found : Json) : Json :=
  .obj [("event_index", .int i), ("event_id", pyGet header "EventID"),
        ("expected", expected), ("found", found)]

/-- The loop of `verify_hash_chain`: index, running `prev_hash` (initially
Python `None`), remaining events; collects every chain break. -/
def chainErrorsAux (i : Nat) (prev : Json) : List Event → List Json
  | [] => []
  | e :: rest =>
    let current_prev := pyGet e.header "PrevHash"
    let current_hash := pyGet e.header "EventHash"
    (if i == 0 then []
     else if jeq current_prev prev then []
     else [mkChainErr i e.header prev current_prev]) ++
    chainErrorsAux (i + 1) current_hash rest

/-- `VCPVerifier.verify_hash_chain(events)`. -/
def verify_hash_chain (events : List Event) : VerificationResult :=
  let chain_errors := chainErrorsAux 0 .null events
  if chain_errors.isEmpty then
    ⟨true, "Hash chain continuity verified",
     some (.obj [("total_events", .int events.length)])⟩
  else
    ⟨false, "Hash chain has " ++ toString chain_errors.length ++ " breaks",
     some (.obj [("errors", .arr chain_errors)])⟩

/-- The audit-path walk of `verify_merkle_proof`; `none` models the
`ValueError` raised by `bytes.fromhex` on a malformed sibling hash. -/
def walkPath (current : List Nat) : List PathStep → Option (List Nat)
  | [] => some current
  | step :: rest =>
    match hexToBytes step.hash with
    | none => none
    | some sibling =>
      let combined := if step.position == "left" then sibling ++ current
                      else current ++ sibling
      walkPath (compute_merkle_hash combined false) rest

/-- `VCPVerifier.verify_merkle_proof(event_hash, audit_path, merkle_root)`. -/
def verify_merkle_proof (event_hash : String) (audit_path : List PathStep)
    (merkle_root : String) : VerificationResult :=
  match hexToBytes event_hash with
  | none => ⟨false, "Merkle verification error: non-hexadecimal digest", none⟩
  | some leafBytes =>
    match walkPath (compute_merkle_hash leafBytes true) audit_path with
    | none => ⟨false, "Merkle verification error: non-hexadecimal digest", none⟩
    | some current =>
      let computed_root := bytesToHex current
      if computed_root == strLower merkle_root then
        ⟨true, "Merkle proof cryptographically verified",
         some (.obj [("computed_root", .str computed_root),
                     ("expected_root", .str merkle_root),
                     ("audit_path_length", .int audit_path.length)])⟩
      else
        ⟨false, "Merkle root MISMATCH",
         some (.obj [("computed_root", .str computed_root),
                     ("expected_root", .str merkle_root)])⟩

/-- `bytes.fromhex` over a whole list: `none` as soon as any entry fails. -/
def mapHex : List String → Option (List (List Nat))
  | [] => some []
  | h :: t =>
    match hexToBytes h, mapHex t with
    | some b, some bs => some (b :: bs)
    | _, _ => none

/-- One level of the bottom-up tree build in `verify_merkle_root`: adjacent
pairs are combined; an unpaired last node is combined with itself. -/
def pairUp : List (List Nat) → List (List Nat)
  | [] => []
  | [x] => [compute_merkle_hash (x ++ x) false]
  | x :: y :: rest => compute_merkle_hash (x ++ y) false :: pairUp rest

/-- The `while len(current) > 1` loop; the fuel (the starting node count
suffices) makes the recursion structural. -/
def buildLevels : Nat → List (List Nat) → List (List Nat)
  | 0, current => current
  | fuel + 1, current =>
    if current.length ≤ 1 then current else buildLevels fuel (pairUp current)

/-- The root the tree reconstruction computes from the leaf digests. -/
def merkle_tree_root (leaves : List (List Nat)) : List Nat :=
  (buildLevels leaves.length leaves).headD []

/-- `VCPVerifier.verify_merkle_root(event_hashes, expected_root)`. -/
def verify_merkle_root (event_hashes : List String) (expected_root : String) :
    VerificationResult :=
  if event_hashes.isEmpty then ⟨false, "No event hashes", none⟩
  else
    match mapHex event_hashes with
    | none => ⟨false, "Merkle reconstruction error: non-hexadecimal digest", none⟩
    | some bs =>
      let leaves := bs.map (fun b => compute_merkle_hash b true)
      let computed_root := bytesToHex (merkle_tree_root leaves)
      if computed_root == strLower expected_root then
        ⟨true, "Merkle root verified by tree reconstruction",
         some (.obj [("computed_root", .str computed_root),
                     ("leaf_count", .int event_hashes.length)])⟩
      else
        ⟨false, "Merkle root MISMATCH on reconstruction",
         some (.obj [("computed_root", .str computed_root),
                     ("expected_root", .str expected_root)])⟩

/-- `VCPVerifier.verify_anchor(anchor)`. -/
def verify_anchor (anchor : Anchor) : VerificationResult :=
  if anchor.AnchorTarget == "LOCAL_FILE" then
    let computed_proof := compute_sha256 anchor.MerkleRoot
    if computed_proof == anchor.proofSha256 then
      ⟨true, "Anchor " ++ anchor.AnchorID ++ " verified",
       some (.obj [("anchor_type", .str "LOCAL_FILE"),
                   ("merkle_root", .str (strTake anchor.MerkleRoot 16 ++ "...")),
                   ("proof_verified", .bool true)])⟩
    else
      ⟨false, "Anchor proof hash mismatch",
       some (.obj [("computed", .str computed_proof),
                   ("stored", .str anchor.proofSha256)])⟩
  else
    ⟨true, "Anchor " ++ anchor.AnchorID ++
           " structure valid (external verification required)",
     some (.obj [("anchor_type", .str anchor.AnchorTarget)])⟩

/-- `header.get('TimestampInt', 0)` as an integer.  A present value is an
integer on well-typed input (a non-integer value would make the Python
comparison raise, which is outside the embedded behaviour). -/
def tsOf (e : Event) : Int :=
  match pyGetD e.header "TimestampInt" (.int 0) with
  | .int n => n
  | _ => 0

/-- One out-of-order record of `verify_timeline`. -/
def mkOooEntry (i : Nat) (header : List (String × Json)) : Json :=
  .obj [("event_index", .int i), ("event_id", pyGet header "EventID"),
        ("timestamp", pyGet header "TimestampISO")]

/-- The loop of `verify_timeline`: index, previous timestamp (`none` before
the first event), remaining events. -/
def timelineAux (i : Nat) (prev : Option Int) : List Event → List Json
  | [] => []
  | e :: rest =>
    let current_ts := tsOf e
    (match prev with
     | some p => if current_ts < p then [mkOooEntry i e.header] else []
     | none => []) ++
    timelineAux (i + 1) (some current_ts) rest

/-- `VCPVerifier.verify_timeline(events)`. -/
def verify_timeline (events : List Event) : VerificationResult :=
  let out_of_order := timelineAux 0 none events
  if out_of_order.isEmpty then
    ⟨true, "Timeline chronology verified", none⟩
  else
    ⟨false, toString out_of_order.length ++ " events out of order",
     some (.obj [("out_of_order", .arr out_of_order)])⟩

/-- What `run_verification` returns (the printed report aside): the overall
verdict and the per-category results.  `merkle_root` is the single mutable
slot of the source's `results` dict — each batch's root check overwrites it. -/
structure RunResults where
  passed : Bool
  event_hashes : List VerificationResult
  hash_chain : VerificationResult
  merkle_root : Option VerificationResult
  merkle_proofs : List VerificationResult
  anchor_results : List VerificationResult
  timeline : VerificationResult

/-- `VCPVerifier.run_verification()`, after `load_data` has produced the
three collections. -/
def run_verification (events : List Event) (batches : List Batch)
    (anchors : List Anchor) : RunResults :=
  let eventResults := events.map verify_event_hash
  let event_fail := (eventResults.filter (fun r => !r.passed)).length
  let chain := verify_hash_chain events
  let mroot := batches.foldl
    (fun _ b => some (verify_merkle_root b.EventHashes b.MerkleRoot))
    (none : Option VerificationResult)
  let proofs := (batches.map (fun b => b.InclusionProofs.map
    (fun p => verify_merkle_proof p.EventHash p.AuditPath p.MerkleRoot))).flatten
  let anchorResults := anchors.map verify_anchor
  let tl := verify_timeline events
  let all_passed := event_fail == 0 && chain.passed &&
    (match mroot with
     | none => true
     | some r => r.passed) &&
    proofs.all (fun r => r.passed) && anchorResults.all (fun r => r.passed) &&
    tl.passed
  ⟨all_passed, eventResults, chain, mroot, proofs, anchorResults, tl⟩

/-! ## Specification-side definitions

Index-based restatements of the scans and the level-recursion form of the
tree build, used to state the claims; each is proved equal to the
corresponding embedded loop below. -/

/-- Indexing with the out-of-range default used by the index lemmas. -/
def evGetD (events : List Event) (i : Nat) : Event :=
  events.getD i ⟨[], []⟩

/-- The chain-break record the scan would emit at index `i`, if any:
nothing at index 0; otherwise a break exactly when the event's `PrevHash`
differs from its predecessor's `EventHash` (each Python `None` when absent). -/
def specChainBreakAt (events : List Event) (i : Nat) : Option Json :=
  if i = 0 then none
  else
    let expected := pyGet (evGetD events (i - 1)).header "EventHash"
    let found := pyGet (evGetD events i).header "PrevHash"
    if jeq found expected then none
    else some (mkChainErr i (evGetD events i).header expected found)

/-- Every chain break, in index order. -/
def specChainBreaks (events : List Event) : List Json :=
  (List.range events.length).filterMap (specChainBreakAt events)

/-- `specChainBreaks` offset to start index `i` with expected value `prev`
for the first element (the loop's running state made explicit). -/
def chainSpecFrom (i : Nat) (prev : Json) (es : List Event) : List Json :=
  (List.range es.length).filterMap (fun j =>
    let expected := if j = 0 then prev
                    else pyGet (evGetD es (j - 1)).header "EventHash"
    let found := pyGet (evGetD es j).header "PrevHash"
    if jeq found expected then none
    else some (mkChainErr (i + j) (evGetD es j).header expected found))

/-- The out-of-order record the timeline scan would emit at index `i`, if
any: nothing at index 0; otherwise a record exactly when the timestamp is
strictly below the preceding one. -/
def specOooEntry (events : List Event) (i : Nat) : Option Json :=
  if i = 0 then none
  else if tsOf (evGetD events i) < tsOf (evGetD events (i - 1)) then
    some (mkOooEntry i (evGetD events i).header)
  else none

/-- Every out-of-order record, in index order. -/
def specOoo (events : List Event) : List Json :=
  (List.range events.length).filterMap (specOooEntry events)

/-- `specOoo` offset to start index `i` with previous timestamp `p`. -/
def tlSpecFrom (i : Nat) (p : Int) (es : List Event) : List Json :=
  (List.range es.length).filterMap (fun j =>
    let prev := if j = 0 then p else tsOf (evGetD es (j - 1))
    if tsOf (evGetD es j) < prev then some (mkOooEntry (i + j) (evGetD es j).header)
    else none)

/-- The Merkle root as the spec states it: repeatedly combine adjacent
pairs level by level, a level's odd last node combined with a duplicate of
itself, until one node remains. -/
def specMerkleRoot : List (List Nat) → List Nat
  | [] => []
  | [x] => x
  | x :: y :: rest => specMerkleRoot (pairUp (x :: y :: rest))
  termination_by l => l.length
  decreasing_by
    simp only [pairUp, List.length_cons]
    induction rest using pairUp.induct
    all_goals simp [pairUp] at *
    all_goals omega

/-- The audit-path fold as the spec states it: at each step the sibling is
the left operand when the declared position is `left`, the right operand
otherwise. -/
def specFoldPath (start : List Nat) (path : List PathStep) : List Nat :=
  path.foldl
    (fun current s =>
      let sibling := (hexToBytes s.hash).getD []
      compute_merkle_hash
        (if s.position == "left" then sibling ++ current else current ++ sibling)
        false)
    start

/-! ## Theorems

First the embedding-validation facts and general helper lemmas, then one
theorem per claim (each with its witness where the statement carries
hypotheses). -/

/-- The SHA-256 embedding reproduces the FIPS 180-2 test vectors (and hence
`hashlib.sha256`). -/
theorem sha256_matches_fips_vectors :
    compute_sha256 "" =
      "e3b0c44298fc1c149afbf4c8996fb92427ae41e4649b934ca495991b7852b855" ∧
    compute_sha256 "abc" =
      "ba7816bf8f01cfea414140de5dae2223b00361a396177a9cb410ff61f20015ad" :=
  ⟨by decide, by decide⟩

/-- The canonicalization embedding reproduces
`json.dumps(obj, sort_keys=True, separators=(',', ':'), ensure_ascii=False)`
on a sample with nesting, escapes, a negative number and mixed-case keys. -/
theorem canonicalize_json_matches_dumps :
    canonicalize_json (.obj [("b", .arr [.int 1, .bool true, .null]),
        ("a", .str "x\"y\\z"), ("A", .obj [("q", .int (-3))])]) =
      "\x7b\x22A\x22:\x7b\x22q\x22:-3\x7d,\x22a\x22:\x22x\\\x22y\\\\z\x22,\x22b\x22:[1,true,null]\x7d" :=
  by decide
-- scratch: merkle lemmas
theorem pairUp_length : ∀ xs : List (List Nat), (pairUp xs).length = (xs.length + 1) / 2
  | [] => by simp [pairUp]
  | [_] => by simp [pairUp]
  | _ :: _ :: rest => by
    simp [pairUp, pairUp_length rest]
    omega

theorem pairUp_ne_nil : ∀ (x : List Nat) (xs : List (List Nat)), pairUp (x :: xs) ≠ []
  | _, [] => by simp [pairUp]
  | _, _ :: _ => by simp [pairUp]

theorem buildLevels_eq_spec :
    ∀ (fuel : Nat) (l : List (List Nat)), l ≠ [] → l.length ≤ fuel + 1 →
      buildLevels fuel l = [specMerkleRoot l] := by
  intro fuel
  induction fuel with
  | zero =>
    intro l hne hlen
    match l, hne with
    | [x], _ => simp [buildLevels, specMerkleRoot]
    | x :: y :: rest, _ => simp at hlen
  | succ n ih =>
    intro l hne hlen
    match l with
    | [x] => simp [buildLevels, specMerkleRoot]
    | x :: y :: rest =>
      have hlen2 : ¬((x :: y :: rest).length ≤ 1) := by simp
      rw [buildLevels, if_neg hlen2,
          ih (pairUp (x :: y :: rest)) (pairUp_ne_nil x (y :: rest))
            (by rw [pairUp_length]; simp at hlen ⊢; omega)]
      rw [specMerkleRoot]

theorem merkle_tree_root_eq_spec (l : List (List Nat)) (h : l ≠ []) :
    merkle_tree_root l = specMerkleRoot l := by
  unfold merkle_tree_root
  rw [buildLevels_eq_spec l.length l h (by omega)]
  rfl

theorem mapHex_ne_nil {hs : List String} {bs : List (List Nat)}
    (h : mapHex hs = some bs) (hne : hs ≠ []) : bs ≠ [] := by
  cases hs with
  | nil => exact absurd rfl hne
  | cons a t =>
    simp only [mapHex] at h
    cases ha : hexToBytes a <;> rw [ha] at h
    · exact absurd h (by simp)
    · cases ht : mapHex t <;> rw [ht] at h
      · exact absurd h (by simp)
      · simp at h
        rw [← h]
        simp

theorem mapHex_length : ∀ {hs : List String} {bs : List (List Nat)},
    mapHex hs = some bs → bs.length = hs.length := by
  intro hs
  induction hs with
  | nil => intro bs h; simp [mapHex] at h; simp [← h]
  | cons a t ih =>
    intro bs h
    simp only [mapHex] at h
    cases ha : hexToBytes a <;> rw [ha] at h
    · exact absurd h (by simp)
    · cases ht : mapHex t <;> rw [ht] at h
      · exact absurd h (by simp)
      · simp at h
        rw [← h]
        simp [ih ht]

theorem mapHex_none_of_mem : ∀ {hs : List String} {h : String},
    h ∈ hs → hexToBytes h = none → mapHex hs = none := by
  intro hs
  induction hs with
  | nil => intro h hmem; simp at hmem
  | cons a t ih =>
    intro h hmem hbad
    simp only [mapHex]
    rcases List.mem_cons.mp hmem with heq | hmem2
    · rw [← heq, hbad]
    · rw [ih hmem2 hbad]
      cases hexToBytes a <;> rfl

theorem walkPath_eq_spec : ∀ (path : List PathStep),
    (∀ s ∈ path, hexToBytes s.hash ≠ none) →
    ∀ cur : List Nat, walkPath cur path = some (specFoldPath cur path)
  | [], _, cur => rfl
  | a :: t, hall, cur => by
    have ha : hexToBytes a.hash ≠ none := hall a (by simp)
    obtain ⟨sib, hsib⟩ := Option.ne_none_iff_exists'.mp ha
    unfold walkPath
    simp only [hsib]
    rw [walkPath_eq_spec t (fun s hs => hall s (by simp [hs]))]
    simp [specFoldPath, hsib]

theorem walkPath_none_of_mem : ∀ {path : List PathStep} {s : PathStep},
    s ∈ path → hexToBytes s.hash = none → ∀ cur : List Nat, walkPath cur path = none := by
  intro path
  induction path with
  | nil => intro s hmem; simp at hmem
  | cons a t ih =>
    intro s hmem hbad cur
    unfold walkPath
    rcases List.mem_cons.mp hmem with heq | hmem2
    · rw [← heq, hbad]
    · cases ha : hexToBytes a.hash
      · rfl
      · simp only []
        exact ih hmem2 hbad _

/-- C3: for a non-empty leaf-hash list whose entries all parse as hex,
`verify_merkle_root` passes iff the level-by-level tree root (leaf hashes
`SHA256(0x00 || leaf)`, adjacent pairs `SHA256(0x01 || l || r)`, an odd
level's last node duplicated) printed as hex equals the expected root
lowercased. -/
theorem verify_merkle_root_passes_iff (hs : List String) (root : String)
    (bs : List (List Nat)) (hne : hs ≠ []) (hhex : mapHex hs = some bs) :
    (verify_merkle_root hs root).passed = true ↔
      bytesToHex (specMerkleRoot (bs.map (fun b => compute_merkle_hash b true))) =
        strLower root := by
  have hB : bs ≠ [] := mapHex_ne_nil hhex hne
  have hL : bs.map (fun b => compute_merkle_hash b true) ≠ [] := by
    simpa using hB
  unfold verify_merkle_root
  rw [if_neg (by simp [hne])]
  simp only [hhex]
  rw [merkle_tree_root_eq_spec _ hL]
  split
  · next hcond =>
    exact iff_of_true rfl (by exact beq_iff_eq.mp hcond)
  · next hcond =>
    exact iff_of_false (by simp) (fun he => hcond (beq_iff_eq.mpr he))

/-- C8: a single-leaf tree's root is the domain-separated leaf hash
`SHA256(0x00 || leaf)` itself — no internal-node (`0x01`) hashing occurs. -/
theorem single_leaf_root (h : String) (b : List Nat)
    (hb : hexToBytes h = some b) (root : String) :
    merkle_tree_root [compute_merkle_hash b true] = sha256 (0 :: b) ∧
      ((verify_merkle_root [h] root).passed = true ↔
        bytesToHex (sha256 (0 :: b)) = strLower root) := by
  constructor
  · rfl
  · unfold verify_merkle_root
    rw [if_neg (by simp)]
    simp only [mapHex, hb]
    split
    · next hcond =>
      exact iff_of_true rfl (by exact beq_iff_eq.mp hcond)
    · next hcond =>
      exact iff_of_false (by simp) (fun he => hcond (beq_iff_eq.mpr he))

/-- C4: `verify_merkle_proof` starts from `SHA256(0x00 || leafBytes)`, folds
the audit path with the sibling on the declared side under
`SHA256(0x01 || left || right)`, and passes iff the final digest in hex
equals the claimed root lowercased. -/
theorem verify_merkle_proof_passes_iff (event_hash : String)
    (audit_path : List PathStep) (merkle_root : String) (b : List Nat)
    (hb : hexToBytes event_hash = some b)
    (hall : ∀ s ∈ audit_path, hexToBytes s.hash ≠ none) :
    (verify_merkle_proof event_hash audit_path merkle_root).passed = true ↔
      bytesToHex (specFoldPath (compute_merkle_hash b true) audit_path) =
        strLower merkle_root := by
  unfold verify_merkle_proof
  simp only [hb]
  rw [walkPath_eq_spec audit_path hall]
  split
  · next hcond => exact absurd hcond (by simp)
  · next current hcond =>
    injection hcond with hcur
    subst hcur
    split
    · next hcond2 =>
      exact iff_of_true rfl (by exact beq_iff_eq.mp hcond2)
    · next hcond2 =>
      exact iff_of_false (by simp) (fun he => hcond2 (beq_iff_eq.mpr he))

/-- C7: data errors are failed results, not crashes: an empty leaf list
fails with an explicit message, and a malformed hash string anywhere in a
root reconstruction or an inclusion proof fails with a descriptive error
message. -/
theorem merkle_data_errors (root root2 root3 : String) (hs : List String)
    (h : String) (hmem : h ∈ hs) (hbad : hexToBytes h = none)
    (eh : String) (hbadEh : hexToBytes eh = none) (path : List PathStep)
    (eh2 : String) (b2 : List Nat) (hok : hexToBytes eh2 = some b2)
    (path2 : List PathStep) (s : PathStep) (hsmem : s ∈ path2)
    (hbadS : hexToBytes s.hash = none) :
    ((verify_merkle_root [] root).passed = false ∧
      (verify_merkle_root [] root).message = "No event hashes") ∧
    ((verify_merkle_root hs root).passed = false ∧
      (verify_merkle_root hs root).message =
        "Merkle reconstruction error: non-hexadecimal digest") ∧
    ((verify_merkle_proof eh path root2).passed = false ∧
      (verify_merkle_proof eh path root2).message =
        "Merkle verification error: non-hexadecimal digest") ∧
    ((verify_merkle_proof eh2 path2 root3).passed = false ∧
      (verify_merkle_proof eh2 path2 root3).message =
        "Merkle verification error: non-hexadecimal digest") := by
  refine ⟨⟨rfl, rfl⟩, ?_, ?_, ?_⟩
  · have hnone : mapHex hs = none := mapHex_none_of_mem hmem hbad
    have hne : hs ≠ [] := by
      intro hnil
      rw [hnil] at hmem
      simp at hmem
    unfold verify_merkle_root
    rw [if_neg (by simp [hne])]
    simp only [hnone]
    constructor <;> trivial
  · unfold verify_merkle_proof
    simp only [hbadEh]
    constructor <;> trivial
  · unfold verify_merkle_proof
    simp only [hok]
    rw [walkPath_none_of_mem hsmem hbadS]
    constructor <;> trivial

theorem chainErrorsAux_eq_from : ∀ (es : List Event) (i : Nat) (prev : Json), i ≠ 0 →
    chainErrorsAux i prev es = chainSpecFrom i prev es := by
  intro es
  induction es with
  | nil => intro i prev hi; rfl
  | cons e rest ih =>
    intro i prev hi
    have hbeq : (i == 0) = false := by simp [hi]
    have htail :
        List.filterMap
          ((fun j =>
            let expected := if j = 0 then prev
                            else pyGet (evGetD (e :: rest) (j - 1)).header "EventHash"
            let found := pyGet (evGetD (e :: rest) j).header "PrevHash"
            if jeq found expected then none
            else some (mkChainErr (i + j) (evGetD (e :: rest) j).header expected found)) ∘
            Nat.succ)
          (List.range rest.length) =
        chainSpecFrom (i + 1) (pyGet e.header "EventHash") rest := by
      rw [chainSpecFrom]
      congr 1
      funext j
      cases j with
      | zero => simp [evGetD]
      | succ j =>
        simp only [Function.comp_apply, evGetD, List.getD_cons_succ,
          Nat.succ_sub_one, Nat.add_succ, Nat.succ_add]
        rfl
    rw [chainErrorsAux, chainSpecFrom]
    simp only [List.length_cons]
    rw [List.range_succ_eq_map, List.filterMap_cons,
        List.filterMap_map, htail, ih (i + 1) (pyGet e.header "EventHash") (by omega),
        hbeq]
    by_cases hj : jeq (pyGet e.header "PrevHash") prev = true
    · simp [hj, evGetD]
    · simp [hj, evGetD]

theorem chainErrorsAux_eq_spec (events : List Event) :
    chainErrorsAux 0 .null events = specChainBreaks events := by
  cases events with
  | nil => rfl
  | cons e rest =>
    have h1 : chainErrorsAux 0 .null (e :: rest) =
        chainErrorsAux 1 (pyGet e.header "EventHash") rest := by
      rw [chainErrorsAux]
      simp
    rw [h1, chainErrorsAux_eq_from rest 1 (pyGet e.header "EventHash") (by omega)]
    rw [chainSpecFrom, specChainBreaks]
    simp only [List.length_cons]
    rw [List.range_succ_eq_map, List.filterMap_cons, List.filterMap_map]
    have h2 : specChainBreakAt (e :: rest) 0 = none := by rfl
    rw [h2]
    congr 1
    funext j
    cases j with
    | zero => simp [specChainBreakAt, evGetD]
    | succ j =>
      simp only [Function.comp_apply, specChainBreakAt, evGetD, List.getD_cons_succ,
        Nat.succ_sub_one, Nat.succ_ne_zero, if_false, Nat.one_add, Nat.succ_eq_add_one]

theorem verify_hash_chain_passed_iff (events : List Event) :
    (verify_hash_chain events).passed = true ↔
      ∀ i < events.length, specChainBreakAt events i = none := by
  have key : (chainErrorsAux 0 .null events).isEmpty = true ↔
      ∀ i < events.length, specChainBreakAt events i = none := by
    rw [chainErrorsAux_eq_spec, List.isEmpty_iff, specChainBreaks,
        List.filterMap_eq_nil_iff]
    constructor
    · intro h i hi
      exact h i (List.mem_range.mpr hi)
    · intro h a ha
      exact h a (List.mem_range.mp ha)
  simp only [verify_hash_chain]
  split
  · next hcond => exact iff_of_true rfl (key.mp hcond)
  · next hcond => exact iff_of_false (by simp) (fun h => hcond (key.mpr h))

theorem specChainBreakAt_none_iff (events : List Event) (i : Nat) :
    specChainBreakAt events i = none ↔
      (i = 0 ∨ jeq (pyGet (evGetD events i).header "PrevHash")
                   (pyGet (evGetD events (i - 1)).header "EventHash") = true) := by
  unfold specChainBreakAt
  by_cases h0 : i = 0
  · simp [h0]
  · rw [if_neg h0]
    by_cases hj : jeq (pyGet (evGetD events i).header "PrevHash")
        (pyGet (evGetD events (i - 1)).header "EventHash") = true
    · simp [hj]
    · simp [hj, h0]

/-- C5: the chain check passes iff every index `i > 0` has `PrevHash` equal
to the predecessor's `EventHash` (a `PrevHash` on index 0 is never a break),
and a failing result lists every break (index, event id, expected, found). -/
theorem verify_hash_chain_spec (events : List Event) :
    ((verify_hash_chain events).passed = true ↔
      ∀ i, i < events.length → 0 < i →
        jeq (pyGet (evGetD events i).header "PrevHash")
            (pyGet (evGetD events (i - 1)).header "EventHash") = true) ∧
    ((verify_hash_chain events).passed = true ∨
      (verify_hash_chain events).details =
        some (.obj [("errors", .arr (specChainBreaks events))])) := by
  constructor
  · rw [verify_hash_chain_passed_iff]
    constructor
    · intro h i hi hpos
      rcases (specChainBreakAt_none_iff events i).mp (h i hi) with h0 | hj
      · omega
      · exact hj
    · intro h i hi
      refine (specChainBreakAt_none_iff events i).mpr ?_
      by_cases h0 : i = 0
      · exact Or.inl h0
      · exact Or.inr (h i hi (by omega))
  · simp only [verify_hash_chain]
    split
    · next => exact Or.inl rfl
    · next => exact Or.inr (by rw [← chainErrorsAux_eq_spec])

/-- C9: a missing `PrevHash` at index `i > 0` is compared as Python `None`:
no break when the predecessor also lacks `EventHash`, a break whenever the
predecessor stores a hash string; events all missing both fields pass. -/
theorem chain_missing_fields (events : List Event) (i : Nat)
    (hi : i < events.length) (h0 : 0 < i)
    (hmiss : pyGet (evGetD events i).header "PrevHash" = .null) :
    (pyGet (evGetD events (i - 1)).header "EventHash" = .null →
      specChainBreakAt events i = none) ∧
    (∀ s : String, pyGet (evGetD events (i - 1)).header "EventHash" = .str s →
      specChainBreakAt events i ≠ none ∧
        (verify_hash_chain events).passed = false) ∧
    ((∀ e ∈ events, pyGet e.header "PrevHash" = .null ∧
        pyGet e.header "EventHash" = .null) →
      (verify_hash_chain events).passed = true) := by
  refine ⟨?_, ?_, ?_⟩
  · intro hnull
    refine (specChainBreakAt_none_iff events i).mpr (Or.inr ?_)
    rw [hmiss, hnull]
    rfl
  · intro s hstr
    have hsome : specChainBreakAt events i ≠ none := by
      unfold specChainBreakAt
      rw [if_neg (by omega : ¬i = 0), hmiss, hstr]
      simp [jeq]
    refine ⟨hsome, ?_⟩
    exact Bool.eq_false_iff.mpr
      (fun hp => hsome ((verify_hash_chain_passed_iff events).mp hp i hi))
  · intro hall
    refine (verify_hash_chain_passed_iff events).mpr ?_
    intro j hj
    refine (specChainBreakAt_none_iff events j).mpr ?_
    by_cases hj0 : j = 0
    · exact Or.inl hj0
    · refine Or.inr ?_
      have hm : evGetD events j ∈ events := by
        unfold evGetD
        rw [List.getD_eq_getElem _ _ hj]
        exact List.getElem_mem hj
      have hm2 : evGetD events (j - 1) ∈ events := by
        have hlt : j - 1 < events.length := by omega
        unfold evGetD
        rw [List.getD_eq_getElem _ _ hlt]
        exact List.getElem_mem hlt
      obtain ⟨hp1, _⟩ := hall _ hm
      obtain ⟨_, hh2⟩ := hall _ hm2
      rw [hp1, hh2]
      rfl

theorem timelineAux_eq_from : ∀ (es : List Event) (i : Nat) (p : Int),
    timelineAux i (some p) es = tlSpecFrom i p es := by
  intro es
  induction es with
  | nil => intro i p; rfl
  | cons e rest ih =>
    intro i p
    have htail :
        List.filterMap
          ((fun j =>
            let prev := if j = 0 then p else tsOf (evGetD (e :: rest) (j - 1))
            if tsOf (evGetD (e :: rest) j) < prev then
              some (mkOooEntry (i + j) (evGetD (e :: rest) j).header)
            else none) ∘ Nat.succ)
          (List.range rest.length) =
        tlSpecFrom (i + 1) (tsOf e) rest := by
      rw [tlSpecFrom]
      congr 1
      funext j
      cases j with
      | zero => simp [evGetD]
      | succ j =>
        simp only [Function.comp_apply, evGetD, List.getD_cons_succ, Nat.succ_sub_one,
          Nat.succ_ne_zero, if_false, Nat.one_add, Nat.succ_eq_add_one]
        have harith : i + (j + 1 + 1) = i + 1 + (j + 1) := by omega
        rw [harith]
    rw [timelineAux, tlSpecFrom]
    simp only [List.length_cons]
    rw [List.range_succ_eq_map, List.filterMap_cons, List.filterMap_map, htail, ih]
    by_cases hlt : tsOf e < p
    · simp [hlt, evGetD]
    · simp [hlt, evGetD]

theorem timelineAux_eq_spec (events : List Event) :
    timelineAux 0 none events = specOoo events := by
  cases events with
  | nil => rfl
  | cons e rest =>
    have h1 : timelineAux 0 none (e :: rest) =
        timelineAux 1 (some (tsOf e)) rest := by
      rw [timelineAux]
      simp
    rw [h1, timelineAux_eq_from rest 1 (tsOf e)]
    rw [tlSpecFrom, specOoo]
    simp only [List.length_cons]
    rw [List.range_succ_eq_map, List.filterMap_cons, List.filterMap_map]
    have h2 : specOooEntry (e :: rest) 0 = none := by rfl
    rw [h2]
    congr 1
    funext j
    cases j with
    | zero => simp [specOooEntry, evGetD]
    | succ j =>
      simp only [Function.comp_apply, specOooEntry, evGetD, List.getD_cons_succ,
        Nat.succ_sub_one, Nat.succ_ne_zero, if_false, Nat.one_add, Nat.succ_eq_add_one]

theorem verify_timeline_passed_iff (events : List Event) :
    (verify_timeline events).passed = true ↔
      ∀ i < events.length, specOooEntry events i = none := by
  have key : (timelineAux 0 none events).isEmpty = true ↔
      ∀ i < events.length, specOooEntry events i = none := by
    rw [timelineAux_eq_spec, List.isEmpty_iff, specOoo, List.filterMap_eq_nil_iff]
    constructor
    · intro h i hi
      exact h i (List.mem_range.mpr hi)
    · intro h a ha
      exact h a (List.mem_range.mp ha)
  simp only [verify_timeline]
  split
  · next hcond => exact iff_of_true rfl (key.mp hcond)
  · next hcond => exact iff_of_false (by simp) (fun h => hcond (key.mpr h))

/-- C10: a missing `TimestampInt` is treated as 0 — such an event at `i > 0`
is reported out of order exactly when the preceding timestamp is positive,
and the next event is compared against 0, so a non-negative next timestamp
is accepted at that step. -/
theorem timeline_missing_timestamp (events : List Event) (i : Nat)
    (hi : i < events.length) (h0 : 0 < i)
    (hmiss : assocJ (evGetD events i).header "TimestampInt" = none) :
    (specOooEntry events i = some (mkOooEntry i (evGetD events i).header) ↔
      0 < tsOf (evGetD events (i - 1))) ∧
    (0 < tsOf (evGetD events (i - 1)) → (verify_timeline events).passed = false) ∧
    (0 ≤ tsOf (evGetD events (i + 1)) → specOooEntry events (i + 1) = none) := by
  have hts : tsOf (evGetD events i) = 0 := by
    unfold tsOf pyGetD
    rw [hmiss]
    rfl
  refine ⟨?_, ?_, ?_⟩
  · unfold specOooEntry
    rw [if_neg (by omega : ¬i = 0), hts]
    constructor
    · intro h
      by_contra hn
      rw [if_neg hn] at h
      simp at h
    · intro h
      rw [if_pos h]
  · intro hlt
    have hsome : specOooEntry events i ≠ none := by
      unfold specOooEntry
      rw [if_neg (by omega : ¬i = 0), hts, if_pos hlt]
      simp
    exact Bool.eq_false_iff.mpr
      (fun hp => hsome ((verify_timeline_passed_iff events).mp hp i hi))
  · intro hge
    unfold specOooEntry
    rw [if_neg (by omega : ¬i + 1 = 0), Nat.add_sub_cancel, hts,
        if_neg (by omega : ¬tsOf (evGetD events (i + 1)) < 0)]

theorem jeq_str_iff (s : String) (v : Json) : jeq (.str s) v = true ↔ v = .str s := by
  cases v
  all_goals simp [jeq]
  exact eq_comm

/-- C2 (amended): `verify_event_hash` passes iff the stored `EventHash`
value equals — exactly, as a case-sensitive string — the SHA-256 of the
canonical header (without `EventHash`) concatenated with the canonical
payload. -/
theorem verify_event_hash_exact (e : Event) :
    (verify_event_hash e).passed = true ↔
      pyGetD e.header "EventHash" (.str "") =
        .str (compute_sha256
          (canonicalize_json (.obj (e.header.filter (fun kv => kv.1 != "EventHash"))) ++
           canonicalize_json (.obj e.payload))) := by
  simp only [verify_event_hash, compute_event_hash]
  split
  · next hcond => exact iff_of_true rfl ((jeq_str_iff _ _).mp hcond)
  · next hcond =>
    exact iff_of_false (by simp) (fun he => hcond ((jeq_str_iff _ _).mpr he))

/-- C2 (counterexample): an event whose stored hash is the correct digest
written in uppercase hex is REJECTED — the stored value is exactly the
uppercase rendering of the digest the verifier computes, yet the check
fails, because the comparison is case-sensitive. -/
theorem verify_event_hash_uppercase_rejected :
    compute_event_hash
        [("EventHash", Json.str "473F0C57D71ACA50DB7E6E60A29E40F65A9E866C650D6378ECCD516618D1F6F7")]
        [("a", Json.int 1)] =
      "473f0c57d71aca50db7e6e60a29e40f65a9e866c650d6378eccd516618d1f6f7" ∧
    strLower "473F0C57D71ACA50DB7E6E60A29E40F65A9E866C650D6378ECCD516618D1F6F7" =
      "473f0c57d71aca50db7e6e60a29e40f65a9e866c650d6378eccd516618d1f6f7" ∧
    (verify_event_hash
        ⟨[("EventHash", Json.str "473F0C57D71ACA50DB7E6E60A29E40F65A9E866C650D6378ECCD516618D1F6F7")],
         [("a", Json.int 1)]⟩).passed = false := by
  refine ⟨by decide, by decide, by decide⟩

/-- C6: a `LOCAL_FILE` anchor passes iff `SHA256(MerkleRoot)` equals the
stored proof digest exactly, failing with both values; any other target
kind always passes with a message annotating that only structural
validation happened and external verification is required. -/
theorem verify_anchor_spec (a : Anchor) :
    (a.AnchorTarget = "LOCAL_FILE" →
      ((verify_anchor a).passed = true ↔
        compute_sha256 a.MerkleRoot = a.proofSha256) ∧
      (compute_sha256 a.MerkleRoot ≠ a.proofSha256 →
        (verify_anchor a).passed = false ∧
        (verify_anchor a).details =
          some (.obj [("computed", .str (compute_sha256 a.MerkleRoot)),
                      ("stored", .str a.proofSha256)]))) ∧
    (a.AnchorTarget ≠ "LOCAL_FILE" →
      (verify_anchor a).passed = true ∧
      (verify_anchor a).message =
        "Anchor " ++ a.AnchorID ++ " structure valid (external verification required)") := by
  constructor
  · intro htgt
    have hcb : (a.AnchorTarget == "LOCAL_FILE") = true := beq_iff_eq.mpr htgt
    simp only [verify_anchor]
    rw [if_pos hcb]
    constructor
    · split
      · next hcond => exact iff_of_true rfl (beq_iff_eq.mp hcond)
      · next hcond =>
        exact iff_of_false (by simp) (fun he => hcond (beq_iff_eq.mpr he))
    · intro hne
      rw [if_neg (fun hc => hne (beq_iff_eq.mp hc))]
      exact ⟨rfl, rfl⟩
  · intro htgt
    simp only [verify_anchor]
    rw [if_neg (fun hc => htgt (beq_iff_eq.mp hc))]
    exact ⟨rfl, rfl⟩

/-- C1 (code evaluation): with two batches — the first failing its root
check, the second passing — the orchestrator's overall verdict is
nevertheless `true`, because the `merkle_root` result slot is overwritten
by each batch in turn and only the last batch's outcome is aggregated. -/
theorem run_verification_keeps_last_batch_only :
    (verify_merkle_root ([] : List String) "").passed = false ∧
    (verify_merkle_root ["ab"]
      "d2bdec3101eb836b1a87afbc37e20aafbbd9c77d2e146dda4c732d44c0bf4515").passed = true ∧
    (run_verification [] [⟨[], "", []⟩,
      ⟨["ab"], "d2bdec3101eb836b1a87afbc37e20aafbbd9c77d2e146dda4c732d44c0bf4515", []⟩]
      []).passed = true := by
  refine ⟨by decide, by decide, by decide⟩

/-- Witness for C3 at a three-leaf batch (odd level, duplication exercised),
with the expected root given in uppercase. -/
theorem verify_merkle_root_passes_iff_witness :
    (["ab", "cd", "ef"] : List String) ≠ [] ∧
    mapHex ["ab", "cd", "ef"] = some [[171], [205], [239]] ∧
    bytesToHex (specMerkleRoot
      ([[171], [205], [239]].map (fun b => compute_merkle_hash b true))) =
      strLower "D58B0F3C52A9E7DCDEA993FE5D844EAE0E3C9A1E4C4B55BCDA8F4A737E5697A0" :=
  ⟨by decide, by decide,
   (verify_merkle_root_passes_iff ["ab", "cd", "ef"]
      "D58B0F3C52A9E7DCDEA993FE5D844EAE0E3C9A1E4C4B55BCDA8F4A737E5697A0"
      [[171], [205], [239]] (by decide) (by decide)).mp (by decide)⟩

/-- Witness for C4 at a one-step audit path with a left sibling. -/
theorem verify_merkle_proof_passes_iff_witness :
    hexToBytes "ab" = some [171] ∧
    (∀ s ∈ [PathStep.mk "cd" "left"], hexToBytes s.hash ≠ none) ∧
    bytesToHex (specFoldPath (compute_merkle_hash [171] true) [PathStep.mk "cd" "left"]) =
      strLower "373204C8D435F312E76127D6510C1FEE64A27935178F7B44C7185B86117FCF1B" :=
  ⟨by decide, by decide,
   (verify_merkle_proof_passes_iff "ab" [PathStep.mk "cd" "left"]
      "373204C8D435F312E76127D6510C1FEE64A27935178F7B44C7185B86117FCF1B" [171]
      (by decide) (by decide)).mp (by decide)⟩

/-- Witness for C6 at a `LOCAL_FILE` anchor whose proof digest is correct. -/
theorem verify_anchor_spec_witness :
    (verify_anchor ⟨"LOCAL_FILE", "anchor-1", "deadbeef",
      "2baf1f40105d9501fe319a8ec463fdf4325a2a5df445adf3f572f626253678c9"⟩).passed = true :=
  ((verify_anchor_spec _).1 rfl).1.mpr (by decide)

/-- Witness for C7 at concrete malformed inputs. -/
theorem merkle_data_errors_witness :
    (verify_merkle_root ["zz"] "00").passed = false ∧
    (verify_merkle_proof "zz" [] "00").passed = false ∧
    (verify_merkle_proof "ab" [PathStep.mk "zz" "left"] "00").passed = false := by
  have h := merkle_data_errors "00" "00" "00" ["zz"] "zz" (List.mem_singleton.mpr rfl)
    (by decide) "zz" (by decide) [] "ab" [171] (by decide) [PathStep.mk "zz" "left"]
    (PathStep.mk "zz" "left") (List.mem_singleton.mpr rfl) (by decide)
  exact ⟨h.2.1.1, h.2.2.1.1, h.2.2.2.1⟩

/-- Witness for C8 at the single leaf `ab`. -/
theorem single_leaf_root_witness :
    merkle_tree_root [compute_merkle_hash [171] true] = sha256 (0 :: [171]) ∧
    bytesToHex (sha256 (0 :: [171])) =
      strLower "D2BDEC3101EB836B1A87AFBC37E20AAFBBD9C77D2E146DDA4C732D44C0BF4515" :=
  ⟨(single_leaf_root "ab" [171] rfl
      "D2BDEC3101EB836B1A87AFBC37E20AAFBBD9C77D2E146DDA4C732D44C0BF4515").1,
   (single_leaf_root "ab" [171] rfl
      "D2BDEC3101EB836B1A87AFBC37E20AAFBBD9C77D2E146DDA4C732D44C0BF4515").2.mp
     (by decide)⟩

/-- Witness for C9: the second event lacks `PrevHash` while the first
stores an `EventHash`, so the chain check fails. -/
theorem chain_missing_fields_witness :
    specChainBreakAt [⟨[("EventHash", Json.str "h")], []⟩, ⟨[], []⟩] 1 ≠ none ∧
    (verify_hash_chain [⟨[("EventHash", Json.str "h")], []⟩, ⟨[], []⟩]).passed = false :=
  (chain_missing_fields [⟨[("EventHash", Json.str "h")], []⟩, ⟨[], []⟩] 1
    (by decide) (by decide) rfl).2.1 "h" rfl

/-- Witness for C10: the second event lacks `TimestampInt` after a positive
timestamp, so the timeline check fails; the third event's non-negative
timestamp is accepted against the defaulted 0. -/
theorem timeline_missing_timestamp_witness :
    (verify_timeline [⟨[("TimestampInt", Json.int 5)], []⟩, ⟨[], []⟩,
      ⟨[("TimestampInt", Json.int 3)], []⟩]).passed = false ∧
    specOooEntry [⟨[("TimestampInt", Json.int 5)], []⟩, ⟨[], []⟩,
      ⟨[("TimestampInt", Json.int 3)], []⟩] 2 = none :=
  ⟨(timeline_missing_timestamp [⟨[("TimestampInt", Json.int 5)], []⟩, ⟨[], []⟩,
      ⟨[("TimestampInt", Json.int 3)], []⟩] 1 (by decide) (by decide) rfl).2.1
     (by decide),
   (timeline_missing_timestamp [⟨[("TimestampInt", Json.int 5)], []⟩, ⟨[], []⟩,
      ⟨[("TimestampInt", Json.int 3)], []⟩] 1 (by decide) (by decide) rfl).2.2
     (by decide)⟩
